import Mathlib

/-!
Verification development for the ArxivSurveyAgent literature-review pipeline.

Strings from the Python source are embedded as lists of characters
(`Str := List Char`), so that every operation is executable and every
concrete example can be settled by `decide`/`rfl`.  Python's `Optional[str]`
becomes `Option Str`; Python truthiness of an optional string (None and ""
are both falsy) is the function `truthy` below.
-/

/-- Strings of the embedded program: lists of characters. -/
abbrev Str := List Char

/-- The sentinel first-author key of `agent.py` line 389. -/
def unknownAuthorStr : Str := ['u', 'n', 'k', 'n', 'o', 'w', 'n', '_', 'a', 'u', 't', 'h', 'o', 'r']

/-- Embedding of Python `str.lower()` restricted to the ASCII letters that
occur in the identifiers, titles and author names handled by the program. -/
def pyLowerChar (c : Char) : Char :=
  if 'A' ≤ c ∧ c ≤ 'Z' then Char.ofNat (c.toNat + 32) else c

/-- Python `str.lower()` maps `lower` over the characters. -/
def pyLower (s : Str) : Str := s.map pyLowerChar

/-- Embedding of Python `str.isspace()` for a single character
(the ASCII whitespace characters). -/
def pyIsSpace (c : Char) : Bool :=
  c = ' ' ∨ c = '\t' ∨ c = '\n' ∨ c = '\r' ∨ c = Char.ofNat 11 ∨ c = Char.ofNat 12

/-- Embedding of Python `str.isalnum()` for a single ASCII character. -/
def pyIsAlnum (c : Char) : Bool := c.isAlpha || c.isDigit

/-- Embedding of Python `str.strip()`: drop whitespace from both ends. -/
def pyStrip (s : Str) : Str :=
  ((s.dropWhile pyIsSpace).reverse.dropWhile pyIsSpace).reverse

/-- Fuel-driven substring replacement; with fuel at least the length of the
subject string this is Python `str.replace(pat, rep)` (all occurrences,
scanned left to right).  The empty pattern is never used by the program. -/
def replaceFuel (pat rep : Str) : Nat → Str → Str
  | _, [] => []
  | 0, s => s
  | fuel + 1, c :: cs =>
    if pat ≠ [] ∧ pat.isPrefixOf (c :: cs) then
      rep ++ replaceFuel pat rep fuel (List.drop (pat.length - 1) cs)
    else
      c :: replaceFuel pat rep fuel cs

/-- Python `s.replace(pat, rep)`. -/
def replaceAll (pat rep s : Str) : Str := replaceFuel pat rep s.length s

/-- Fuel-driven whitespace tokenizer; with fuel at least the length of the
string this is Python `str.split()` (split on whitespace runs, no empty
tokens). -/
def splitWsFuel : Nat → Str → List Str
  | _, [] => []
  | 0, s => [s]
  | fuel + 1, c :: cs =>
    if pyIsSpace c then splitWsFuel fuel cs
    else (c :: cs.takeWhile (fun d => !pyIsSpace d)) ::
      splitWsFuel fuel (cs.dropWhile (fun d => !pyIsSpace d))

/-- Python `str.split()` with no separator argument. -/
def splitWs (s : Str) : List Str := splitWsFuel s.length s

/-- Python `" ".join(s.split())`: collapse every whitespace run to a single
space and drop outer whitespace (arxiv_client.py line 122). -/
def normalizeSpaces (s : Str) : Str := List.intercalate [' '] (splitWs s)

/-- Python truthiness of an `Optional[str]`: `None` and `""` are falsy. -/
def truthy (o : Option Str) : Bool :=
  match o with
  | some s => !s.isEmpty
  | none => false

/-- Literature record, from `base_retriever.py` (`LiteratureItem`), restricted
to the fields the verified pipeline stages read: `id`, `title`, `authors`,
`abstract`, `full_text`, `doi`, `arxiv_id`. -/
structure LiteratureItem where
  id : Str
  title : Str
  authors : List Str
  abstract : Option Str
  full_text : Option Str
  doi : Option Str
  arxiv_id : Option Str
deriving DecidableEq, Repr

/-- Strong-identity key of `agent.py` lines 353-362: the lowercased DOI if the
DOI is truthy, else the lowercased arXiv id if truthy, else no key. -/
def strongKey (it : LiteratureItem) : Option Str :=
  if truthy it.doi then some (pyLower (it.doi.getD []))
  else if truthy it.arxiv_id then some (pyLower (it.arxiv_id.getD []))
  else none

/-- Soft-identity title normalization of `agent.py` lines 383-385: lowercase,
keep only alphanumeric characters and whitespace, then strip. -/
def normTitle (t : Str) : Str :=
  pyStrip ((pyLower t).filter (fun c => pyIsAlnum c || pyIsSpace c))

/-- Soft-identity first-author normalization of `agent.py` lines 386-390:
lowercase and strip the first author, or the sentinel `"unknown_author"`
when the author list is empty. -/
def normFirstAuthor (authors : List Str) : Str :=
  match authors with
  | [] => unknownAuthorStr
  | a :: _ => pyStrip (pyLower a)

/-- Soft-identity key of `agent.py` line 392: the pair
`(norm_title, first_author_norm)`.  The Python code stores
`hash((norm_title, first_author_norm))` in its seen-set; the hash is
modelled as the pair itself (i.e. as injective). -/
def softKey (it : LiteratureItem) : Str × Str :=
  (normTitle it.title, normFirstAuthor it.authors)

/-- Common shape of the two deduplication loops of
`agent.py` lines 350-401: walk the list keeping a seen-set of keys; an item
whose key is already seen is skipped, otherwise its key (when present) is
added and the item is kept.  The strong pass instantiates `key` with
`strongKey` (items without identifiers have no key and always pass);
the soft pass instantiates it with `some ∘ softKey` (every item has a key). -/
def dedupByAux {α κ : Type} [DecidableEq κ] (key : α → Option κ)
    (seen : List κ) : List α → List α
  | [] => []
  | x :: xs =>
    match key x with
    | none => x :: dedupByAux key seen xs
    | some k =>
      if k ∈ seen then dedupByAux key seen xs
      else x :: dedupByAux key (k :: seen) xs

/-- Deduplication stage 1 of `agent.py` lines 350-372 (DOI / arXiv id). -/
def strongDedup (l : List LiteratureItem) : List LiteratureItem :=
  dedupByAux strongKey [] l

/-- Deduplication stage 2 of `agent.py` lines 379-401 (title / first author). -/
def softDedup (l : List LiteratureItem) : List LiteratureItem :=
  dedupByAux (fun it => some (softKey it)) [] l

/-- The two-stage Deduplicator: stage 1 then stage 2. -/
def dedup (l : List LiteratureItem) : List LiteratureItem :=
  softDedup (strongDedup l)

/-- Deduplication followed by the truncation of `agent.py` lines 409-418:
when more than `maxPapers` items survive, keep the first `maxPapers`. -/
def dedupAndLimit (l : List LiteratureItem) (maxPapers : Nat) :
    List LiteratureItem :=
  let d := dedup l
  if d.length > maxPapers then d.take maxPapers else d

/-- Claim-side characterization of a first-seen-wins pass keyed by `key`:
an item is kept exactly when its key is absent or no item earlier in the
input carries the same key.  `prior` is the already-scanned prefix. -/
def firstSeenAux {α κ : Type} [DecidableEq κ] (key : α → Option κ)
    (prior : List α) : List α → List α
  | [] => []
  | x :: xs =>
    match key x with
    | none => x :: firstSeenAux key (prior ++ [x]) xs
    | some k =>
      if ∃ y ∈ prior, key y = some k then firstSeenAux key (prior ++ [x]) xs
      else x :: firstSeenAux key (prior ++ [x]) xs

/-- Claim-side collision relation for C1 as stated: two items collide when
both carry a truthy DOI and the DOIs agree after lowercasing, or when
neither carries a truthy DOI, both carry a truthy external arXiv id and those
agree after lowercasing. -/
def claimStrongCollide (y x : LiteratureItem) : Bool :=
  (truthy y.doi && truthy x.doi &&
    decide (pyLower (y.doi.getD []) = pyLower (x.doi.getD []))) ||
  (!truthy y.doi && !truthy x.doi && truthy y.arxiv_id && truthy x.arxiv_id &&
    decide (pyLower (y.arxiv_id.getD []) = pyLower (x.arxiv_id.getD [])))

/-- Claim-side first-seen pass over a collision relation: an item is kept
exactly when no earlier item collides with it. -/
def firstSeenRelAux {α : Type} (collide : α → α → Bool) (prior : List α) :
    List α → List α
  | [] => []
  | x :: xs =>
    if prior.any (fun y => collide y x) then
      firstSeenRelAux collide (prior ++ [x]) xs
    else x :: firstSeenRelAux collide (prior ++ [x]) xs

/-- Claim-side normalization for C3 as stated: lowercase and strip all
characters that are neither alphanumeric nor spaces (applied by the claim to
the title and to the first author alike). -/
def claimNorm (s : Str) : Str :=
  (pyLower s).filter (fun c => pyIsAlnum c || pyIsSpace c)

/-- Claim-side soft key for C3 as stated: the claimed normalization applied
to the title and to the first author (sentinel for an empty author list). -/
def claimSoftKey (it : LiteratureItem) : Str × Str :=
  (claimNorm it.title,
    match it.authors with
    | [] => unknownAuthorStr
    | a :: _ => claimNorm a)

/-- Default query substituted by `arxiv_client.py` line 126 when a translated
query collapses to near-empty. -/
def defaultQueryStr : Str := ['m', 'a', 'c', 'h', 'i', 'n', 'e', ' ', 'l', 'e', 'a', 'r', 'n', 'i', 'n', 'g']

/-- The translation of the example query of the spec. -/
def deepLearningStr : Str := ['d', 'e', 'e', 'p', ' ', 'l', 'e', 'a', 'r', 'n', 'i', 'n', 'g']

/-- The example Chinese query of the spec. -/
def dlQueryStr : Str := ['深', '度', '学', '习']

/-- A Chinese-containing query whose cleaned translation has 3 characters but
only 2 non-space characters. -/
def cxQueryStr : Str := ['a', '的', 'b']

/-- The static Chinese-to-English keyword table of arxiv_client.py lines 17-59,
in dict insertion order. -/
def chineseToEnglish : List (Str × Str) :=
  [ (['深', '度', '学', '习'], ['d', 'e', 'e', 'p', ' ', 'l', 'e', 'a', 'r', 'n', 'i', 'n', 'g']),
    (['机', '器', '学', '习'], ['m', 'a', 'c', 'h', 'i', 'n', 'e', ' ', 'l', 'e', 'a', 'r', 'n', 'i', 'n', 'g']),
    (['人', '工', '智', '能'], ['a', 'r', 't', 'i', 'f', 'i', 'c', 'i', 'a', 'l', ' ', 'i', 'n', 't', 'e', 'l', 'l', 'i', 'g', 'e', 'n', 'c', 'e']),
    (['神', '经', '网', '络'], ['n', 'e', 'u', 'r', 'a', 'l', ' ', 'n', 'e', 't', 'w', 'o', 'r', 'k']),
    (['卷', '积', '神', '经', '网', '络'], ['c', 'o', 'n', 'v', 'o', 'l', 'u', 't', 'i', 'o', 'n', 'a', 'l', ' ', 'n', 'e', 'u', 'r', 'a', 'l', ' ', 'n', 'e', 't', 'w', 'o', 'r', 'k']),
    (['循', '环', '神', '经', '网', '络'], ['r', 'e', 'c', 'u', 'r', 'r', 'e', 'n', 't', ' ', 'n', 'e', 'u', 'r', 'a', 'l', ' ', 'n', 'e', 't', 'w', 'o', 'r', 'k']),
    (['t', 'r', 'a', 'n', 's', 'f', 'o', 'r', 'm', 'e', 'r'], ['t', 'r', 'a', 'n', 's', 'f', 'o', 'r', 'm', 'e', 'r']),
    (['注', '意', '力', '机', '制'], ['a', 't', 't', 'e', 'n', 't', 'i', 'o', 'n', ' ', 'm', 'e', 'c', 'h', 'a', 'n', 'i', 's', 'm']),
    (['自', '然', '语', '言', '处', '理'], ['n', 'a', 't', 'u', 'r', 'a', 'l', ' ', 'l', 'a', 'n', 'g', 'u', 'a', 'g', 'e', ' ', 'p', 'r', 'o', 'c', 'e', 's', 's', 'i', 'n', 'g']),
    (['计', '算', '机', '视', '觉'], ['c', 'o', 'm', 'p', 'u', 't', 'e', 'r', ' ', 'v', 'i', 's', 'i', 'o', 'n']),
    (['强', '化', '学', '习'], ['r', 'e', 'i', 'n', 'f', 'o', 'r', 'c', 'e', 'm', 'e', 'n', 't', ' ', 'l', 'e', 'a', 'r', 'n', 'i', 'n', 'g']),
    (['优', '化', '算', '法'], ['o', 'p', 't', 'i', 'm', 'i', 'z', 'a', 't', 'i', 'o', 'n', ' ', 'a', 'l', 'g', 'o', 'r', 'i', 't', 'h', 'm']),
    (['梯', '度', '下', '降'], ['g', 'r', 'a', 'd', 'i', 'e', 'n', 't', ' ', 'd', 'e', 's', 'c', 'e', 'n', 't']),
    (['反', '向', '传', '播'], ['b', 'a', 'c', 'k', 'p', 'r', 'o', 'p', 'a', 'g', 'a', 't', 'i', 'o', 'n']),
    (['损', '失', '函', '数'], ['l', 'o', 's', 's', ' ', 'f', 'u', 'n', 'c', 't', 'i', 'o', 'n']),
    (['正', '则', '化'], ['r', 'e', 'g', 'u', 'l', 'a', 'r', 'i', 'z', 'a', 't', 'i', 'o', 'n']),
    (['批', '量', '归', '一', '化'], ['b', 'a', 't', 'c', 'h', ' ', 'n', 'o', 'r', 'm', 'a', 'l', 'i', 'z', 'a', 't', 'i', 'o', 'n']),
    (['学', '习', '率'], ['l', 'e', 'a', 'r', 'n', 'i', 'n', 'g', ' ', 'r', 'a', 't', 'e']),
    (['医', '疗'], ['m', 'e', 'd', 'i', 'c', 'a', 'l']),
    (['诊', '断'], ['d', 'i', 'a', 'g', 'n', 'o', 's', 'i', 's']),
    (['图', '像', '识', '别'], ['i', 'm', 'a', 'g', 'e', ' ', 'r', 'e', 'c', 'o', 'g', 'n', 'i', 't', 'i', 'o', 'n']),
    (['语', '音', '识', '别'], ['s', 'p', 'e', 'e', 'c', 'h', ' ', 'r', 'e', 'c', 'o', 'g', 'n', 'i', 't', 'i', 'o', 'n']),
    (['推', '荐', '系', '统'], ['r', 'e', 'c', 'o', 'm', 'm', 'e', 'n', 'd', 'a', 't', 'i', 'o', 'n', ' ', 's', 'y', 's', 't', 'e', 'm']),
    (['自', '动', '驾', '驶'], ['a', 'u', 't', 'o', 'n', 'o', 'm', 'o', 'u', 's', ' ', 'd', 'r', 'i', 'v', 'i', 'n', 'g']),
    (['最', '新', '研', '究'], ['r', 'e', 'c', 'e', 'n', 't', ' ', 'r', 'e', 's', 'e', 'a', 'r', 'c', 'h']),
    (['综', '述'], ['s', 'u', 'r', 'v', 'e', 'y']),
    (['算', '法'], ['a', 'l', 'g', 'o', 'r', 'i', 't', 'h', 'm']),
    (['模', '型'], ['m', 'o', 'd', 'e', 'l']),
    (['方', '法'], ['m', 'e', 't', 'h', 'o', 'd']),
    (['技', '术'], ['t', 'e', 'c', 'h', 'n', 'i', 'q', 'u', 'e']),
    (['应', '用'], ['a', 'p', 'p', 'l', 'i', 'c', 'a', 't', 'i', 'o', 'n']),
    (['性', '能'], ['p', 'e', 'r', 'f', 'o', 'r', 'm', 'a', 'n', 'c', 'e']),
    (['准', '确', '率'], ['a', 'c', 'c', 'u', 'r', 'a', 'c', 'y']),
    (['效', '果'], ['e', 'f', 'f', 'e', 'c', 't', 'i', 'v', 'e', 'n', 'e', 's', 's']) ]


/-- The Chinese stopword list of arxiv_client.py lines 116-117. -/
def chineseStopwords : List Str :=
  [ ['的'],
    ['在'],
    ['中'],
    ['与'],
    ['和'],
    ['或'],
    ['关', '于'],
    ['对', '于'],
    ['基', '于'],
    ['通', '过'],
    ['使', '用'],
    ['采', '用'],
    ['研', '究'],
    ['分', '析'],
    ['方', '法'],
    ['技', '术'],
    ['算', '法'],
    ['模', '型'],
    ['系', '统'],
    ['应', '用'],
    ['实', '现'],
    ['设', '计'],
    ['开', '发'],
    ['提', '出'],
    ['改', '进'],
    ['优', '化'],
    ['评', '估'],
    ['实', '验'],
    ['结', '果'],
    ['效', '果'],
    ['性', '能'],
    ['比', '较'],
    ['分', '析'],
    ['讨', '论'],
    ['总', '结'],
    ['结', '论'] ]
/-- Test for a Chinese character, from `arxiv_client.py` line 101:
a code point in the CJK range U+4E00 - U+9FFF. -/
def hasChineseChar (c : Char) : Bool :=
  (0x4e00 ≤ c.toNat) && (c.toNat ≤ 0x9fff)

/-- Test whether a query contains any Chinese character
(`arxiv_client.py` line 101). -/
def hasChinese (q : Str) : Bool := q.any hasChineseChar

/-- Keyword substitution loop of `arxiv_client.py` lines 109-113: replace each
table entry in dict order.  (The Python guard `if chinese in translated_query`
only skips replacements that would be identities.) -/
def applyTranslationTable (q : Str) : Str :=
  chineseToEnglish.foldl (fun acc p => replaceAll p.1 p.2 acc) q

/-- Stopword removal loop of `arxiv_client.py` lines 116-119: replace each
stopword by a single space. -/
def removeStopwords (q : Str) : Str :=
  chineseStopwords.foldl (fun acc w => replaceAll w [' '] acc) q

/-- The translated-and-cleaned query of `arxiv_client.py` lines 109-122,
before the near-empty check. -/
def collapseQuery (q : Str) : Str :=
  normalizeSpaces (removeStopwords (applyTranslationTable q))

/-- Embedding of `ArxivClient.translate_chinese_query`
(`arxiv_client.py` lines 87-131). -/
def translate_chinese_query (q : Str) : Str :=
  if q = [] then q
  else if hasChinese q = false then q
  else
    let t := collapseQuery q
    if pyStrip t = [] ∨ (pyStrip t).length < 3 then defaultQueryStr else t

/-- The query actually dispatched by `ArxivClient.search`
(`arxiv_client.py` line 159): the search always translates first. -/
def searchDispatchQuery (q : Str) : Str := translate_chinese_query q

/-- Claim-side near-empty test for C6 as stated: fewer than 3 non-space
characters. -/
def claimNearEmpty (s : Str) : Bool :=
  (s.filter (fun c => !pyIsSpace c)).length < 3

/-- Exceptions raised by `ArxivClient.search`, mirrored from the source:
`exc` is a plain Python `Exception` with its message; `opTimeout` is the
typed `OperationTimeoutError` of `exceptions.py` lines 192-206. -/
inductive PyExcModel where
  | exc (msg : Str)
  | opTimeout (msg : Str)
deriving DecidableEq, Repr

/-- The timeout message of `arxiv_client.py` line 205. -/
def timeoutMsg : Str := ['A', 'r', 'X', 'i', 'v', ' ', 's', 'e', 'a', 'r', 'c', 'h', ' ', 't', 'i', 'm', 'e', 'd', ' ', 'o', 'u', 't', ' ', 'a', 'f', 't', 'e', 'r', ' ', '4', '5', ' ', 's', 'e', 'c', 'o', 'n', 'd', 's']

/-- Possible outcomes of the bounded wait around the arXiv API call
(`arxiv_client.py` lines 179-191): the executor call returns a result list
within the budget, an API error is caught inside `search_arxiv` (which then
returns the empty list), or `asyncio.wait_for` expires. -/
inductive ArxivWaitOutcome where
  | completes (results : List LiteratureItem)
  | apiErrorCaught
  | timesOut
deriving DecidableEq, Repr

/-- The `timeout=45` argument of `asyncio.wait_for`
(`arxiv_client.py` line 190). -/
def arxivSearchTimeoutSeconds : Nat := 45

/-- Result of `ArxivClient.search` (`arxiv_client.py` lines 179-208) as a
function of the wait outcome: a completed wait returns the converted items,
a caught API error yields the empty list, and an expired wait is re-raised
by the `except asyncio.TimeoutError` arm as a plain
`Exception("ArXiv search timed out after 45 seconds")`. -/
def arxivSearchResult (o : ArxivWaitOutcome) :
    Except PyExcModel (List LiteratureItem) :=
  match o with
  | .completes items => .ok items
  | .apiErrorCaught => .ok []
  | .timesOut => .error (.exc timeoutMsg)

/-- Test whether a search result is the typed `OperationTimeoutError` the
claim describes. -/
def isOpTimeoutResult (r : Except PyExcModel (List LiteratureItem)) : Bool :=
  match r with
  | .error (.opTimeout _) => true
  | _ => false

/-- Outcome of one HTTP attempt inside `LLMManager._make_request`
(`llm_manager.py` lines 91-146): a 2xx response, an
`httpx.HTTPStatusError` with its status code, an `httpx.RequestError`
(transport failure), or any other exception. -/
inductive HttpAttempt where
  | ok
  | status (code : Nat)
  | transport
  | other
deriving DecidableEq, Repr

/-- A sleep performed by the retry loop: `backoff n` is the generic
`asyncio.sleep(1 * (attempt + 1))` of lines 133 and 140, `rateLimit n` is the
`asyncio.sleep(rate_limit_delay * (attempt + 1))` of lines 124-126 (delays
recorded in whole delay units). -/
inductive SleepEv where
  | backoff (units : Nat)
  | rateLimit (units : Nat)
deriving DecidableEq, Repr

/-- Terminal outcome of `_make_request`: success, or one of its raised
`LLMManagerError` variants (authentication, HTTP-after-retries,
request-after-retries, unexpected, or the final fall-through raise of
lines 148-150). -/
inductive LLMOutcome where
  | success
  | authError
  | httpError
  | requestError
  | unexpectedError
  | exhausted
deriving DecidableEq, Repr

/-- The configuration consumed by the retry loop: `max_retries` and the
rate-limit delay (in whole delay units). -/
structure LLMConfig where
  maxRetries : Nat
  rateLimitDelay : Nat
deriving DecidableEq, Repr

/-- The retry loop of `_make_request` (`llm_manager.py` lines 91-150) over a
sequence of per-attempt outcomes `o`.  `attempt` is the loop index, `fuel`
the number of remaining iterations of `range(max_retries)`; the result pairs
the terminal outcome with the sleeps performed, in order. -/
def makeRequestLoop (cfg : LLMConfig) (o : Nat → HttpAttempt)
    (attempt : Nat) : Nat → LLMOutcome × List SleepEv
  | 0 => (.exhausted, [])
  | fuel + 1 =>
    match o attempt with
    | .ok => (.success, [])
    | .status code =>
      if code = 401 ∨ code = 403 then (.authError, [])
      else if code = 429 then
        let r := makeRequestLoop cfg o (attempt + 1) fuel
        (r.1, .rateLimit (cfg.rateLimitDelay * (attempt + 1)) :: r.2)
      else if attempt = cfg.maxRetries - 1 then (.httpError, [])
      else
        let r := makeRequestLoop cfg o (attempt + 1) fuel
        (r.1, .backoff (1 * (attempt + 1)) :: r.2)
    | .transport =>
      if attempt = cfg.maxRetries - 1 then (.requestError, [])
      else
        let r := makeRequestLoop cfg o (attempt + 1) fuel
        (r.1, .backoff (1 * (attempt + 1)) :: r.2)
    | .other => (.unexpectedError, [])

/-- Embedding of `LLMManager._make_request`: run the loop for
`max_retries` iterations starting at attempt 0. -/
def makeRequest (cfg : LLMConfig) (o : Nat → HttpAttempt) :
    LLMOutcome × List SleepEv :=
  makeRequestLoop cfg o 0 cfg.maxRetries

/-- The configured default of `llm_max_retries`
(`utils/config.py` line 32: `Field(default=3, ...)`). -/
def llmMaxRetriesDefault : Nat := 3

/-- Claim-side backoff for C2 as stated: an exponential (doubling) delay
sequence starting from the loop's initial 1-second delay. -/
def specExpBackoff (i : Nat) : Nat := 2 ^ i

/-- Placeholder summary of `agent.py` line 491 for items with no text. -/
def noTextMsg : Str := ['N', 'o', ' ', 't', 'e', 'x', 't', ' ', 'c', 'o', 'n', 't', 'e', 'n', 't', ' ', 'a', 'v', 'a', 'i', 'l', 'a', 'b', 'l', 'e', ' ', 'f', 'o', 'r', ' ', 's', 'u', 'm', 'm', 'a', 'r', 'i', 'z', 'a', 't', 'i', 'o', 'n', '.']

/-- Placeholder summary of `agent.py` line 523 when the summarizer raises. -/
def aiFailMsg : Str := ['A', 'I', ' ', 's', 'u', 'm', 'm', 'a', 'r', 'y', ' ', 'g', 'e', 'n', 'e', 'r', 'a', 't', 'i', 'o', 'n', ' ', 'f', 'a', 'i', 'l', 'e', 'd', '.']

/-- Summary type of `agent.py` line 509 used when full text is present. -/
def keyFindingsStr : Str := ['k', 'e', 'y', '_', 'f', 'i', 'n', 'd', 'i', 'n', 'g', 's']

/-- Summary type of `agent.py` line 509 used when full text is absent. -/
def abstractEnhStr : Str := ['a', 'b', 's', 't', 'r', 'a', 'c', 't', '_', 'e', 'n', 'h', 'a', 'n', 'c', 'e', 'm', 'e', 'n', 't']

/-- Outcome of one `summarizer.summarize_text` call as seen by the analysis
loop: a returned summary, or a raised exception. -/
inductive SummarizeOutcome where
  | ok (s : Str)
  | raises
deriving DecidableEq, Repr

/-- The text handed to the AI stage for one item (`agent.py` line 486):
the full text when truthy, else the abstract; `[]` plays the role of the
falsy values `None` and `""`. -/
def textForAI (it : LiteratureItem) : Str :=
  if truthy it.full_text then it.full_text.getD [] else it.abstract.getD []

/-- Result of the per-item analysis stage: the summary attached to the item
and the list of summarizer calls made, each as `(text, summary_type)`. -/
structure AnalysisResult where
  summary : Str
  summarizerCalls : List (Str × Str)
deriving DecidableEq, Repr

/-- Embedding of the per-item AI-processing step of `agent.py` lines 486-547:
an item with no text (neither truthy full text nor abstract) gets the no-text
placeholder and no summarizer call; otherwise the summarizer is called once
with `key_findings` when full text is truthy and `abstract_enhancement`
otherwise, and a raised summarizer exception degrades the summary to the
fixed failure placeholder. -/
def analyzeItem (it : LiteratureItem)
    (summ : Str → Str → SummarizeOutcome) : AnalysisResult :=
  let t := textForAI it
  if t = [] then ⟨noTextMsg, []⟩
  else
    let st := if truthy it.full_text then keyFindingsStr else abstractEnhStr
    match summ t st with
    | .ok s => ⟨s, [(t, st)]⟩
    | .raises => ⟨aiFailMsg, [(t, st)]⟩

/-- The analysis loop of `agent.py` lines 479-547: every retained item is
processed and appended to `processed_papers`, whatever the summarizer did. -/
def processItems (l : List LiteratureItem)
    (summ : Str → Str → SummarizeOutcome) : List AnalysisResult :=
  l.map (fun it => analyzeItem it summ)

/-- Message returned by `summarizer.py` line 137 when the LLM answer strips
to nothing. -/
def emptyContentMsg : Str := ['S', 'u', 'm', 'm', 'a', 'r', 'y', ' ', 'g', 'e', 'n', 'e', 'r', 'a', 't', 'i', 'o', 'n', ' ', 'r', 'e', 's', 'u', 'l', 't', 'e', 'd', ' ', 'i', 'n', ' ', 'e', 'm', 'p', 't', 'y', ' ', 'c', 'o', 'n', 't', 'e', 'n', 't', '.']

/-- One message object of the chat-completion response
(`response["choices"][0]["message"]`); its `content` key is optional. -/
structure ChatMessage where
  content : Option Str
deriving DecidableEq, Repr

/-- A chat-completion response: a list of choices, each optionally carrying a
`message` object. -/
structure ChatResponse where
  choices : List (Option ChatMessage)
deriving DecidableEq, Repr

/-- Outcome of `llm_manager.generate_chat_completion` as seen by
`summarize_text`: a response dictionary, a raised `LLMManagerError`, or any
other raised exception. -/
inductive ChatOutcome where
  | resp (r : ChatResponse)
  | raisesManager
  | raisesOther

/-- The `SummarizerError` variants of `summarizer.py` lines 146-158:
invalid response format, a wrapped `LLMManagerError`, or a wrapped
unexpected exception. -/
inductive SummErr where
  | invalidFormat
  | llmInteraction
  | unexpected
deriving DecidableEq, Repr

/-- Embedding of `Summarizer.summarize_text` (`summarizer.py` lines 32-158)
with no custom prompt template, as a function of the chat-completion outcome;
the second component counts the LLM calls made. -/
def summarizeText (text : Str) (llm : ChatOutcome) :
    Except SummErr Str × Nat :=
  if pyStrip text = [] then (.ok [], 0)
  else
    match llm with
    | .raisesManager => (.error .llmInteraction, 1)
    | .raisesOther => (.error .unexpected, 1)
    | .resp r =>
      match r.choices.head? with
      | some (some m) =>
        let s := pyStrip (m.content.getD [])
        if s = [] then (.ok emptyContentMsg, 1) else (.ok s, 1)
      | _ => (.error .invalidFormat, 1)

/-- First item of the dedup example of the spec: `{doi:"10.1/X", title:"A"}`. -/
def exItemA : LiteratureItem :=
  ⟨['1'], ['A'], [], none, none, some ['1', '0', '.', '1', '/', 'X'], none⟩

/-- Second item of the dedup example of the spec: `{doi:"10.1/x", title:"B"}`. -/
def exItemB : LiteratureItem :=
  ⟨['2'], ['B'], [], none, none, some ['1', '0', '.', '1', '/', 'x'], none⟩

/-- An item carrying only a DOI whose lowercased text coincides with the
external id of `crossItemQ`. -/
def crossItemP : LiteratureItem :=
  ⟨['1'], ['P'], [], none, none,
    some ['2', '3', '0', '1', '.', '0', '0', '0', '0', '1'], none⟩

/-- An item with no DOI whose external arXiv id equals the DOI of
`crossItemP`. -/
def crossItemQ : LiteratureItem :=
  ⟨['2'], ['Q'], [], none, none, none,
    some ['2', '3', '0', '1', '.', '0', '0', '0', '0', '1']⟩

/-- An item titled `"T"` with first author `"Smith, J."`. -/
def softItemC : LiteratureItem :=
  ⟨['1'], ['T'], [['S', 'm', 'i', 't', 'h', ',', ' ', 'J', '.']], none, none,
    none, none⟩

/-- An item titled `"T"` with first author `"Smith J."`: it differs from
`softItemC`'s author only in characters that are neither alphanumeric nor
spaces. -/
def softItemD : LiteratureItem :=
  ⟨['2'], ['T'], [['S', 'm', 'i', 't', 'h', ' ', 'J', '.']], none, none,
    none, none⟩

/-- An item with neither full text nor abstract. -/
def noTextItem : LiteratureItem :=
  ⟨['1'], ['X'], [], none, none, none, none⟩

/-- An item with an abstract but no full text. -/
def abstractOnlyItem : LiteratureItem :=
  ⟨['1'], ['X'], [], some ['a'], none, none, none⟩

set_option maxRecDepth 8192

/-- The seen-set loop and the first-seen characterization agree whenever the
seen-set holds exactly the keys of the already-scanned prefix. -/
theorem dedupByAux_eq_firstSeenAux {α κ : Type} [DecidableEq κ]
    (key : α → Option κ) :
    ∀ (xs : List α) (seen : List κ) (prior : List α),
      (∀ k, k ∈ seen ↔ ∃ y ∈ prior, key y = some k) →
      dedupByAux key seen xs = firstSeenAux key prior xs := by
  intro xs
  induction xs with
  | nil => intro seen prior _; rfl
  | cons x xs ih =>
    intro seen prior h
    cases hkey : key x with
    | none =>
      simp only [dedupByAux, firstSeenAux, hkey]
      refine congrArg (x :: ·) (ih seen (prior ++ [x]) ?_)
      intro k
      rw [h k]
      constructor
      · rintro ⟨y, hy, hky⟩; exact ⟨y, List.mem_append_left _ hy, hky⟩
      · rintro ⟨y, hy, hky⟩
        rcases List.mem_append.1 hy with hy | hy
        · exact ⟨y, hy, hky⟩
        · rw [List.mem_singleton.1 hy, hkey] at hky; cases hky
    | some k =>
      simp only [dedupByAux, firstSeenAux, hkey]
      by_cases hmem : k ∈ seen
      · have hex : ∃ y ∈ prior, key y = some k := (h k).1 hmem
        rw [if_pos hmem, if_pos hex]
        refine ih seen (prior ++ [x]) ?_
        intro k'
        rw [h k']
        constructor
        · rintro ⟨y, hy, hky⟩; exact ⟨y, List.mem_append_left _ hy, hky⟩
        · rintro ⟨y, hy, hky⟩
          rcases List.mem_append.1 hy with hy | hy
          · exact ⟨y, hy, hky⟩
          · rw [List.mem_singleton.1 hy, hkey] at hky
            exact ⟨hex.choose, hex.choose_spec.1, hex.choose_spec.2.trans hky⟩
      · have hex : ¬ ∃ y ∈ prior, key y = some k := fun he => hmem ((h k).2 he)
        rw [if_neg hmem, if_neg hex]
        refine congrArg (x :: ·) (ih (k :: seen) (prior ++ [x]) ?_)
        intro k'
        constructor
        · intro hk'
          rcases List.mem_cons.1 hk' with rfl | hk'
          · exact ⟨x, List.mem_append_right _ (List.mem_singleton_self x), hkey⟩
          · obtain ⟨y, hy, hky⟩ := (h k').1 hk'
            exact ⟨y, List.mem_append_left _ hy, hky⟩
        · rintro ⟨y, hy, hky⟩
          rcases List.mem_append.1 hy with hy | hy
          · exact List.mem_cons_of_mem _ ((h k').2 ⟨y, hy, hky⟩)
          · rw [List.mem_singleton.1 hy, hkey] at hky
            rw [Option.some.inj hky]
            exact List.mem_cons_self _ _

/-- A dedup pass only drops items: its output is a subsequence of its input. -/
theorem dedupByAux_sublist {α κ : Type} [DecidableEq κ] (key : α → Option κ) :
    ∀ (xs : List α) (seen : List κ), (dedupByAux key seen xs).Sublist xs := by
  intro xs
  induction xs with
  | nil => intro seen; exact List.Sublist.refl _
  | cons x xs ih =>
    intro seen
    cases hkey : key x with
    | none => simpa [dedupByAux, hkey] using (ih seen).cons₂ x
    | some k =>
      by_cases hmem : k ∈ seen
      · simpa [dedupByAux, hkey, hmem] using (ih seen).cons x
      · simpa [dedupByAux, hkey, hmem] using (ih (k :: seen)).cons₂ x

/-- The kept items of a dedup pass carry pairwise different keys (among the
keyed ones), and no kept key was in the initial seen-set. -/
theorem dedupByAux_pairwise {α κ : Type} [DecidableEq κ] (key : α → Option κ) :
    ∀ (xs : List α) (seen : List κ),
      (dedupByAux key seen xs).Pairwise
        (fun a b => ∀ k, key a = some k → key b ≠ some k) ∧
      ∀ x ∈ dedupByAux key seen xs, ∀ k, key x = some k → k ∉ seen := by
  intro xs
  induction xs with
  | nil => intro seen; exact ⟨List.Pairwise.nil, by simp [dedupByAux]⟩
  | cons x xs ih =>
    intro seen
    cases hkey : key x with
    | none =>
      obtain ⟨hp, hm⟩ := ih seen
      refine ⟨?_, ?_⟩
      · simp only [dedupByAux, hkey]
        exact List.Pairwise.cons (fun b _ k hk => by rw [hkey] at hk; cases hk) hp
      · intro y hy k hk
        simp only [dedupByAux, hkey, List.mem_cons] at hy
        rcases hy with rfl | hy
        · rw [hkey] at hk; cases hk
        · exact hm y hy k hk
    | some k =>
      by_cases hmem : k ∈ seen
      · obtain ⟨hp, hm⟩ := ih seen
        refine ⟨?_, ?_⟩
        · simpa [dedupByAux, hkey, hmem] using hp
        · intro y hy
          simp only [dedupByAux, hkey, hmem, if_pos] at hy
          exact hm y hy
      · obtain ⟨hp, hm⟩ := ih (k :: seen)
        refine ⟨?_, ?_⟩
        · simp only [dedupByAux, hkey, hmem, if_neg]
          refine List.Pairwise.cons ?_ hp
          intro b hb k' hk' hkb
          rw [hkey] at hk'
          exact hm b hb k' hkb (by rw [← Option.some.inj hk']; exact List.mem_cons_self _ _)
        · intro y hy k' hk'
          simp only [dedupByAux, hkey, hmem, if_neg] at hy
          rcases List.mem_cons.1 hy with rfl | hy
          · rw [hkey] at hk'; rw [← Option.some.inj hk']; exact hmem
          · exact fun hk'' => hm y hy k' hk' (List.mem_cons_of_mem _ hk'')

/-- A dedup pass is the identity on a list whose keyed items already carry
pairwise different keys, none of them in the seen-set. -/
theorem dedupByAux_eq_self {α κ : Type} [DecidableEq κ] (key : α → Option κ) :
    ∀ (xs : List α) (seen : List κ),
      xs.Pairwise (fun a b => ∀ k, key a = some k → key b ≠ some k) →
      (∀ x ∈ xs, ∀ k, key x = some k → k ∉ seen) →
      dedupByAux key seen xs = xs := by
  intro xs
  induction xs with
  | nil => intro seen _ _; rfl
  | cons x xs ih =>
    intro seen hp hm
    rcases List.pairwise_cons.1 hp with ⟨hx, hp'⟩
    cases hkey : key x with
    | none =>
      simp only [dedupByAux, hkey]
      rw [ih seen hp' (fun y hy => hm y (List.mem_cons_of_mem x hy))]
    | some k =>
      have hns : k ∉ seen := hm x (List.mem_cons_self x xs) k hkey
      simp only [dedupByAux, hkey, hns, if_neg]
      refine congrArg (x :: ·) (ih (k :: seen) hp' ?_)
      intro y hy k' hk' hkmem
      rcases List.mem_cons.1 hkmem with rfl | hkmem
      · exact hx y hy k' (by rw [hkey]) hk'
      · exact hm y (List.mem_cons_of_mem x hy) k' hk' hkmem

/-- A dedup pass started with an empty seen-set is the identity on any
subsequence of its own output. -/
theorem dedupByAux_eq_of_sublist {α κ : Type} [DecidableEq κ]
    (key : α → Option κ) {m l : List α}
    (h : m.Sublist (dedupByAux key [] l)) : dedupByAux key [] m = m :=
  dedupByAux_eq_self key m []
    (List.Pairwise.sublist h (dedupByAux_pairwise key l []).1)
    (fun _ _ k _ => List.not_mem_nil k)

/-- The retry loop under permanent transport failure: it makes `fuel`
attempts, sleeping the linear backoff delays `attempt+1, ..., ` between
them, and ends by raising the request error. -/
theorem makeRequestLoop_const_transport (cfg : LLMConfig) :
    ∀ (fuel attempt : Nat), attempt + fuel = cfg.maxRetries → 0 < fuel →
      makeRequestLoop cfg (fun _ => .transport) attempt fuel =
        (.requestError, (List.range' (attempt + 1) (fuel - 1)).map SleepEv.backoff) := by
  intro fuel
  induction fuel with
  | zero => intro attempt _ h0; cases h0
  | succ f ih =>
    intro attempt hsum _
    cases f with
    | zero =>
      have hlast : attempt = cfg.maxRetries - 1 := by omega
      simp [makeRequestLoop, hlast, List.range']
    | succ f' =>
      have hlast : ¬ attempt = cfg.maxRetries - 1 := by omega
      have hrec := ih (attempt + 1) (by omega) (by omega)
      rw [makeRequestLoop]
      simp only [hrec, if_neg hlast]
      simp [List.range']

/-- The retry loop under a permanently returned non-2xx status other than
401, 403 and 429 (for example a permanent 500): it makes `fuel` attempts,
sleeping the same linear generic backoff between them, and raises the HTTP
error on the last attempt. -/
theorem makeRequestLoop_const_status (cfg : LLMConfig) (code : Nat)
    (hauth : ¬(code = 401 ∨ code = 403)) (hrate : ¬ code = 429) :
    ∀ (fuel attempt : Nat), attempt + fuel = cfg.maxRetries → 0 < fuel →
      makeRequestLoop cfg (fun _ => .status code) attempt fuel =
        (.httpError, (List.range' (attempt + 1) (fuel - 1)).map SleepEv.backoff) := by
  intro fuel
  induction fuel with
  | zero => intro attempt _ h0; cases h0
  | succ f ih =>
    intro attempt hsum _
    cases f with
    | zero =>
      have hlast : attempt = cfg.maxRetries - 1 := by omega
      rw [makeRequestLoop]
      simp only [if_neg hauth, if_neg hrate, if_pos hlast]
      simp [List.range']
    | succ f' =>
      have hlast : ¬ attempt = cfg.maxRetries - 1 := by omega
      have hrec := ih (attempt + 1) (by omega) (by omega)
      rw [makeRequestLoop]
      simp only [hrec, if_neg hauth, if_neg hrate, if_neg hlast]
      simp [List.range']

/-- The retry loop under permanent 429: every attempt sleeps the scaled
rate-limit delay, and the loop falls through to the final exhausted raise. -/
theorem makeRequestLoop_const_429 (cfg : LLMConfig) :
    ∀ (fuel attempt : Nat),
      makeRequestLoop cfg (fun _ => .status 429) attempt fuel =
        (.exhausted, (List.range' (attempt + 1) fuel).map
          (fun n => SleepEv.rateLimit (cfg.rateLimitDelay * n))) := by
  intro fuel
  induction fuel with
  | zero => intro attempt; simp [makeRequestLoop, List.range']
  | succ f ih =>
    intro attempt
    simp [makeRequestLoop, ih (attempt + 1), List.range']

/-- Stripping a string made of whitespace yields the empty string. -/
theorem pyStrip_eq_nil_of_space {t : Str} (h : ∀ c ∈ t, pyIsSpace c = true) :
    pyStrip t = [] := by
  have h1 : t.dropWhile pyIsSpace = [] := List.dropWhile_eq_nil_iff.2 h
  simp [pyStrip, h1]

/-- C1 (counterexample): the claim's per-type grouping is false on the code.
`crossItemP` carries only the DOI "2301.00001" and `crossItemQ` carries only
the external arXiv id "2301.00001"; under the claim's grouping (DOI keys
compared among DOI holders, external ids among DOI-less items) both items are
alone in their groups and both should survive, but the strong pass keeps its
DOI keys and external-id keys in one shared seen-set and drops `crossItemQ`. -/
theorem strong_dedup_claim_cx :
    strongDedup [crossItemP, crossItemQ] = [crossItemP] ∧
    firstSeenRelAux claimStrongCollide [] [crossItemP, crossItemQ] =
      [crossItemP, crossItemQ] ∧
    strongDedup [crossItemP, crossItemQ] ≠
      firstSeenRelAux claimStrongCollide [] [crossItemP, crossItemQ] := by
  refine ⟨by decide, by decide, by decide⟩

/-- C1 (amended): the strong-identity pass computes one case-normalized key
per item - the lowercased DOI when truthy, else the lowercased external
arXiv id when truthy - and keeps an item exactly when it has no key or no
earlier item of the input has the same key (keys live in a single namespace,
so a DOI key can also collide with an external-id key); in particular, for
the input `[{doi:"10.1/X", title:"A"}, {doi:"10.1/x", title:"B"}]` only the
item titled "A" is retained. -/
theorem strong_dedup_first_seen :
    (∀ l : List LiteratureItem, strongDedup l = firstSeenAux strongKey [] l) ∧
    strongDedup [exItemA, exItemB] = [exItemA] := by
  refine ⟨fun l => dedupByAux_eq_firstSeenAux strongKey l [] [] ?_, by decide⟩
  intro k
  simp

/-- C3 (counterexample): the claim's collision predicate (title and first
author both normalized by lowercasing and dropping non-alphanumeric,
non-space characters) is false on the code: `softItemC` and `softItemD`
share the title "T" and their first authors "Smith, J." and "Smith J."
agree under the claim's normalization, yet the soft pass keeps both,
because the code normalizes the first author only by lowercasing and
trimming outer whitespace, leaving the comma in place. -/
theorem soft_dedup_claim_cx :
    softDedup [softItemC, softItemD] = [softItemC, softItemD] ∧
    firstSeenAux (fun it => some (claimSoftKey it)) [] [softItemC, softItemD] =
      [softItemC] ∧
    softDedup [softItemC, softItemD] ≠
      firstSeenAux (fun it => some (claimSoftKey it)) [] [softItemC, softItemD] := by
  refine ⟨by decide, by decide, by decide⟩

/-- C3 (amended): two items collide in the soft-identity pass exactly when
they agree on the pair (normalized title, normalized first author), where
the title is lowercased, stripped of characters that are neither
alphanumeric nor whitespace and trimmed, while the first author is only
lowercased and trimmed (items with no authors take the sentinel
"unknown_author"); per colliding key the first-seen item is retained and
later duplicates are dropped. -/
theorem soft_dedup_first_seen :
    ∀ l : List LiteratureItem,
      softDedup l = firstSeenAux (fun it => some (softKey it)) [] l := by
  intro l
  refine dedupByAux_eq_firstSeenAux _ l [] [] ?_
  intro k
  simp

/-- C4: the two-stage Deduplicator (strong-identity pass then soft-identity
pass) is idempotent: applied to its own output it returns exactly the same
items in the same order. -/
theorem dedup_idempotent : ∀ l : List LiteratureItem, dedup (dedup l) = dedup l := by
  intro l
  show softDedup (strongDedup (softDedup (strongDedup l))) = dedup l
  have h1 : strongDedup (softDedup (strongDedup l)) = softDedup (strongDedup l) :=
    dedupByAux_eq_of_sublist strongKey
      (dedupByAux_sublist (fun it => some (softKey it)) (strongDedup l) [])
  rw [h1]
  exact dedupByAux_eq_of_sublist (fun it => some (softKey it))
    (List.Sublist.refl (softDedup (strongDedup l)))

/-- C5: the deduplicated output is a subsequence of the input (retained
items keep their input order), and the final list is exactly the first
`maxPapers` retained items - truncation takes a prefix of the retained
order, with no re-ranking. -/
theorem dedup_order_and_truncation :
    ∀ (l : List LiteratureItem) (maxPapers : Nat),
      (dedupAndLimit l maxPapers).Sublist l ∧
      dedupAndLimit l maxPapers = (dedup l).take maxPapers := by
  intro l maxPapers
  have htake : dedupAndLimit l maxPapers = (dedup l).take maxPapers := by
    show (if (dedup l).length > maxPapers then (dedup l).take maxPapers else dedup l) =
      (dedup l).take maxPapers
    by_cases h : (dedup l).length > maxPapers
    · rw [if_pos h]
    · rw [if_neg h, List.take_of_length_le (Nat.le_of_not_lt h)]
  refine ⟨?_, htake⟩
  rw [htake]
  exact ((List.take_sublist _ _).trans
    (dedupByAux_sublist _ (strongDedup l) [])).trans
    (dedupByAux_sublist _ l [])

/-- C2 (counterexample): the generic backoff is not exponential.  With
`max_retries = 4` and a permanent transport failure, the loop sleeps
1, 2 and 3 delay units between its four attempts; an exponential (doubling)
backoff starting from the same initial delay would sleep 1, 2 and 4. -/
theorem llm_backoff_not_exponential :
    makeRequest ⟨4, 7⟩ (fun _ => .transport) =
      (.requestError, [.backoff 1, .backoff 2, .backoff 3]) ∧
    specExpBackoff 2 = 4 ∧
    (makeRequest ⟨4, 7⟩ (fun _ => .transport)).2 ≠
      [.backoff (specExpBackoff 0), .backoff (specExpBackoff 1),
        .backoff (specExpBackoff 2)] := by
  refine ⟨by decide, by decide, by decide⟩

/-- C2 (amended): `_make_request` makes at most `max_retries` attempts; on a
401 or 403 response it raises the authentication error immediately with no
retry and no sleep; on permanent transport failure, and likewise on every
permanently returned non-2xx status other than 401/403/429 (for example a
permanent 500), it sleeps the linearly growing generic backoff of
`attempt + 1` seconds (1, 2, ..., maxRetries-1) between its attempts before
raising the terminal error; on permanent 429 it sleeps
`rate_limit_delay * (attempt + 1)` before every retry instead of the
generic backoff, and exhausts the loop; the configured default of
`max_retries` is 3. -/
theorem llm_retry_policy_amended :
    (∀ (cfg : LLMConfig) (o : Nat → HttpAttempt),
        0 < cfg.maxRetries → (o 0 = .status 401 ∨ o 0 = .status 403) →
        makeRequest cfg o = (.authError, [])) ∧
    (∀ cfg : LLMConfig, 0 < cfg.maxRetries →
        makeRequest cfg (fun _ => .transport) =
          (.requestError,
            (List.range' 1 (cfg.maxRetries - 1)).map SleepEv.backoff)) ∧
    (∀ (cfg : LLMConfig) (code : Nat), 0 < cfg.maxRetries →
        ¬(code = 401 ∨ code = 403) → ¬ code = 429 →
        makeRequest cfg (fun _ => .status code) =
          (.httpError,
            (List.range' 1 (cfg.maxRetries - 1)).map SleepEv.backoff)) ∧
    (∀ cfg : LLMConfig,
        makeRequest cfg (fun _ => .status 429) =
          (.exhausted, (List.range' 1 cfg.maxRetries).map
            (fun n => SleepEv.rateLimit (cfg.rateLimitDelay * n)))) ∧
    llmMaxRetriesDefault = 3 := by
  refine ⟨?_, ?_, ?_, ?_, rfl⟩
  · intro cfg o hpos hauth
    show makeRequestLoop cfg o 0 cfg.maxRetries = (.authError, [])
    obtain ⟨f, hf⟩ : ∃ f, cfg.maxRetries = f + 1 :=
      ⟨cfg.maxRetries - 1, by omega⟩
    rw [hf, makeRequestLoop]
    rcases hauth with h | h <;> rw [h] <;> simp
  · intro cfg hpos
    exact makeRequestLoop_const_transport cfg cfg.maxRetries 0 (Nat.zero_add _) hpos
  · intro cfg code hpos hauth hrate
    exact makeRequestLoop_const_status cfg code hauth hrate cfg.maxRetries 0
      (Nat.zero_add _) hpos
  · intro cfg
    exact makeRequestLoop_const_429 cfg cfg.maxRetries 0

/-- C2 (witness): the amended retry policy at `max_retries = 3`,
`rate_limit_delay = 5`: a 401 fails immediately with no sleep, permanent
transport failure and a permanent 500 each sleep 1 then 2 seconds before
their terminal raise, and permanent 429 sleeps 5, 10, 15. -/
theorem llm_retry_policy_instance :
    makeRequest ⟨3, 5⟩ (fun _ => HttpAttempt.status 401) = (.authError, []) ∧
    makeRequest ⟨3, 5⟩ (fun _ => HttpAttempt.transport) =
      (.requestError, (List.range' 1 2).map SleepEv.backoff) ∧
    makeRequest ⟨3, 5⟩ (fun _ => HttpAttempt.status 500) =
      (.httpError, (List.range' 1 2).map SleepEv.backoff) ∧
    makeRequest ⟨3, 5⟩ (fun _ => HttpAttempt.status 429) =
      (.exhausted, (List.range' 1 3).map
        (fun n => SleepEv.rateLimit (5 * n))) :=
  ⟨llm_retry_policy_amended.1 ⟨3, 5⟩ _ (by decide) (Or.inl rfl),
   llm_retry_policy_amended.2.1 ⟨3, 5⟩ (by decide),
   llm_retry_policy_amended.2.2.1 ⟨3, 5⟩ 500 (by decide) (by decide) (by decide),
   llm_retry_policy_amended.2.2.2.1 ⟨3, 5⟩⟩

/-- C6 (counterexample): the near-empty fallback condition of the claim is
false on the code.  The query "a的b" contains a Chinese character, and its
translated-and-cleaned form "a b" has only 2 non-space characters - near
empty in the claim's sense - yet the code compares the trimmed length
(3, counting the interior space) against 3 and dispatches "a b" instead of
substituting "machine learning". -/
theorem chinese_query_near_empty_cx :
    hasChinese cxQueryStr = true ∧
    claimNearEmpty (collapseQuery cxQueryStr) = true ∧
    translate_chinese_query cxQueryStr = ['a', ' ', 'b'] ∧
    translate_chinese_query cxQueryStr ≠ defaultQueryStr := by
  refine ⟨by decide, by decide, by decide, by decide⟩

/-- C6 (amended): every Chinese-containing query is translated through the
static keyword table and stopword removal before dispatch, and the safe
default "machine learning" is substituted exactly when the whitespace-trimmed
translated query has fewer than 3 characters (interior spaces counted);
in particular the query "深度学习" is dispatched as "deep learning". -/
theorem chinese_query_translation_amended :
    (∀ q : Str, hasChinese q = true → q ≠ [] →
        translate_chinese_query q =
          (if (pyStrip (collapseQuery q)).length < 3 then defaultQueryStr
           else collapseQuery q)) ∧
    searchDispatchQuery dlQueryStr = deepLearningStr := by
  refine ⟨?_, by decide⟩
  intro q hq hne
  rw [translate_chinese_query, if_neg hne, if_neg (by rw [hq]; decide)]
  by_cases hlen : (pyStrip (collapseQuery q)).length < 3
  · rw [if_pos (Or.inr hlen), if_pos hlen]
  · rw [if_neg ?_, if_neg hlen]
    rintro (he | hl)
    · exact hlen (by rw [he]; decide)
    · exact hlen hl

/-- C6 (witness): the amended statement applied to the query "深度学习",
whose translation "deep learning" is long enough to be dispatched as is. -/
theorem chinese_query_translation_instance :
    translate_chinese_query dlQueryStr =
      (if (pyStrip (collapseQuery dlQueryStr)).length < 3 then defaultQueryStr
       else collapseQuery dlQueryStr) ∧
    searchDispatchQuery dlQueryStr = deepLearningStr :=
  ⟨chinese_query_translation_amended.1 dlQueryStr (by decide) (by decide),
   chinese_query_translation_amended.2⟩

/-- C7 (counterexample): the claim is false for an item with neither full
text nor abstract: it is processed without any summarizer call (so in
particular no "abstract_enhancement" call is made for this full-text-less
item) and its summary is the distinct no-text placeholder, not an AI
summary. -/
theorem analysis_no_text_cx :
    truthy noTextItem.full_text = false ∧
    (analyzeItem noTextItem (fun _ _ => .ok ['s'])).summarizerCalls = [] ∧
    (analyzeItem noTextItem (fun _ _ => .ok ['s'])).summary = noTextMsg := by
  refine ⟨rfl, rfl, rfl⟩

/-- C7 (amended): for every item with some text, the summarizer is called
exactly once, with summary type "key_findings" exactly when the item's full
text is truthy and "abstract_enhancement" otherwise, and a raised summarizer
exception degrades the summary to the fixed placeholder
"AI summary generation failed."; an item with no text at all gets the
no-text placeholder without any summarizer call; in all cases every input
item yields exactly one processed record, so a failure never drops an item
or aborts the batch. -/
theorem analysis_degradation_amended :
    (∀ (it : LiteratureItem) (summ : Str → Str → SummarizeOutcome),
        textForAI it ≠ [] →
        (analyzeItem it summ).summarizerCalls =
          [(textForAI it,
            if truthy it.full_text then keyFindingsStr else abstractEnhStr)] ∧
        (summ (textForAI it)
            (if truthy it.full_text then keyFindingsStr else abstractEnhStr) =
              .raises →
          (analyzeItem it summ).summary = aiFailMsg)) ∧
    (∀ (it : LiteratureItem) (summ : Str → Str → SummarizeOutcome),
        textForAI it = [] → analyzeItem it summ = ⟨noTextMsg, []⟩) ∧
    (∀ (l : List LiteratureItem) (summ : Str → Str → SummarizeOutcome),
        (processItems l summ).length = l.length) := by
  refine ⟨?_, ?_, ?_⟩
  · intro it summ h
    simp only [analyzeItem, if_neg h]
    cases hres : summ (textForAI it)
        (if truthy it.full_text then keyFindingsStr else abstractEnhStr) with
    | ok s =>
      refine ⟨rfl, ?_⟩
      intro hr
      simp at hr
    | raises => exact ⟨rfl, fun _ => rfl⟩
  · intro it summ h
    simp only [analyzeItem, if_pos h]
  · intro l summ
    simp [processItems]

/-- C7 (witness): the amended statement at an item carrying only the
abstract "a" and a summarizer that raises: one "abstract_enhancement" call
is made and the summary degrades to the failure placeholder, while the
no-text item is processed with no call at all. -/
theorem analysis_degradation_instance :
    (analyzeItem abstractOnlyItem (fun _ _ => .raises)).summarizerCalls =
      [(textForAI abstractOnlyItem, abstractEnhStr)] ∧
    (analyzeItem abstractOnlyItem (fun _ _ => .raises)).summary = aiFailMsg ∧
    analyzeItem noTextItem (fun _ _ => .raises) = ⟨noTextMsg, []⟩ :=
  ⟨(analysis_degradation_amended.1 abstractOnlyItem (fun _ _ => .raises)
      (by decide)).1,
   (analysis_degradation_amended.1 abstractOnlyItem (fun _ _ => .raises)
      (by decide)).2 rfl,
   analysis_degradation_amended.2.1 noTextItem (fun _ _ => .raises) (by decide)⟩

/-- C8 (counterexample): on an expired wait the search does not raise the
typed `OperationTimeoutError` the claim names: it raises a plain Exception
carrying the message "ArXiv search timed out after 45 seconds". -/
theorem arxiv_search_timeout_cx :
    isOpTimeoutResult (arxivSearchResult .timesOut) = false ∧
    arxivSearchResult .timesOut ≠ .error (.opTimeout timeoutMsg) := by
  refine ⟨rfl, ?_⟩
  intro h
  cases h

/-- C8 (amended): the search call bounds its wait with the constant
45-second `asyncio.wait_for` budget, and when that budget expires it fails
by raising a plain `Exception("ArXiv search timed out after 45 seconds")`
rather than hanging; the typed `OperationTimeoutError` of `exceptions.py`
is not used on this path.  A completed wait returns its items. -/
theorem arxiv_search_timeout_amended :
    arxivSearchTimeoutSeconds = 45 ∧
    arxivSearchResult .timesOut = .error (.exc timeoutMsg) ∧
    (∀ items : List LiteratureItem,
      arxivSearchResult (.completes items) = .ok items) :=
  ⟨rfl, rfl, fun _ => rfl⟩

/-- C9: `translate_chinese_query` is the identity on every query with no
character in the CJK range U+4E00 - U+9FFF; in particular pure Latin-script
queries and the empty query are never rewritten. -/
theorem translate_identity_on_non_chinese :
    ∀ q : Str, hasChinese q = false → translate_chinese_query q = q := by
  intro q h
  by_cases he : q = []
  · rw [translate_chinese_query, if_pos he]
  · rw [translate_chinese_query, if_neg he, if_pos h]

/-- C9 (witness): the Latin-script query "deep" passes through unchanged. -/
theorem translate_identity_instance :
    translate_chinese_query ['d', 'e', 'e', 'p'] = ['d', 'e', 'e', 'p'] :=
  translate_identity_on_non_chinese ['d', 'e', 'e', 'p'] (by decide)

/-- C10: for every input text made only of whitespace (including the empty
text), `summarize_text` returns the empty string with zero LLM calls and no
exception, and conversely every run that ends in a raised `SummarizerError`
had a non-blank input. -/
theorem summarize_blank_short_circuit :
    (∀ (t : Str) (llm : ChatOutcome), (∀ c ∈ t, pyIsSpace c = true) →
        summarizeText t llm = (.ok [], 0)) ∧
    (∀ (t : Str) (llm : ChatOutcome) (e : SummErr) (n : Nat),
        summarizeText t llm = (.error e, n) →
        ¬ (∀ c ∈ t, pyIsSpace c = true)) := by
  have hblank : ∀ (t : Str) (llm : ChatOutcome),
      (∀ c ∈ t, pyIsSpace c = true) → summarizeText t llm = (.ok [], 0) := by
    intro t llm h
    simp [summarizeText, pyStrip_eq_nil_of_space h]
  refine ⟨hblank, ?_⟩
  intro t llm e n heq hall
  rw [hblank t llm hall] at heq
  simp at heq

/-- C10 (witness): the text " \t" is summarized to the empty string with
zero LLM calls, even though the gateway would raise if it were called. -/
theorem summarize_blank_instance :
    summarizeText [' ', '\t'] .raisesManager = (.ok [], 0) :=
  summarize_blank_short_circuit.1 [' ', '\t'] .raisesManager (by decide)
